import Mathlib

/-!
Shallow embedding of the krabba-client typed HTTP client (src/index.ts).

The TypeScript source is a single class `Client` with
  - three private serializer helpers (`#serializePathParams`,
    `#serializeQueryParams`, `#serializeRequestBody`),
  - a private pipeline `#request` (middlewares, transport, afterwares),
  - a private decoder `#response`,
  - four public verb methods (`get`, `post`, `put`, `delete`).

Modelling conventions:
  - JavaScript values that may appear as path/query parameter values are
    modelled after string coercion: a parameter value is `some s` when its
    JS string coercion succeeds and yields `s`, and `none` when the
    coercion throws (e.g. a Symbol).  The serializers catch such throws.
  - Request-body payloads are modelled by `Payload`: either a plain JSON
    value (on which JSON.stringify succeeds) or `circular`, a truthy value
    on which JSON.stringify throws (circular structure, BigInt, ...).
  - JS maps (objects) are modelled as association lists in insertion
    order, matching the iteration order of Object.keys / Object.entries
    for string keys.
  - String.prototype.replace with a string pattern is modelled as
    first-occurrence replacement whose replacement string is expanded by
    the ECMAScript GetSubstitution algorithm: a dollar followed by
    dollar, ampersand, backquote or quote expands to a literal dollar,
    the matched text, the text before the match and the text after the
    match respectively, and every other dollar sequence (including
    capture references, since a string pattern has no captures) is
    copied literally.
  - Promises are flattened: asynchronous steps are sequenced explicitly,
    and a rejected promise is an `Except.error`.  In-place mutation of the
    single request descriptor is modelled by explicit state passing, and
    the pipeline additionally records a trace of the hook/transport/decode
    invocations it performs, each event carrying the descriptor value that
    was passed to that step.
-/

/-- A JSON value (no floating point component is needed by the claims;
numeric literals are integers, printed the way JavaScript prints them). -/
inductive JsonValue where
  | null
  | bool (b : Bool)
  | num (n : Int)
  | str (s : String)
  | arr (xs : List JsonValue)
  | obj (fields : List (String × JsonValue))

/-- Hex digit for JSON \u escapes. -/
def hexDigit (n : Nat) : String :=
  if n = 0 then "0" else if n = 1 then "1" else if n = 2 then "2"
  else if n = 3 then "3" else if n = 4 then "4" else if n = 5 then "5"
  else if n = 6 then "6" else if n = 7 then "7" else if n = 8 then "8"
  else if n = 9 then "9" else if n = 10 then "a" else if n = 11 then "b"
  else if n = 12 then "c" else if n = 13 then "d" else if n = 14 then "e"
  else "f"

/-- JSON string escaping as performed by JSON.stringify: quote, backslash
and control characters are escaped, everything else is copied. -/
def escapeJsonChar (c : Char) : String :=
  if c = '"' then "\\\""
  else if c = '\\' then "\\\\"
  else if c = '\n' then "\\n"
  else if c = '\r' then "\\r"
  else if c = '\t' then "\\t"
  else if c = '\x08' then "\\b"
  else if c = '\x0c' then "\\f"
  else if c.toNat < 32 then "\\u00" ++ hexDigit (c.toNat / 16) ++ hexDigit (c.toNat % 16)
  else String.singleton c

def escapeJson (s : String) : String :=
  String.join (s.data.map escapeJsonChar)

mutual

/-- JSON.stringify on serializable values. -/
def jsonStringify : JsonValue → String
  | .null => "null"
  | .bool b => if b then "true" else "false"
  | .num n => n.repr
  | .str s => "\"" ++ escapeJson s ++ "\""
  | .arr xs => "[" ++ jsonStringifyArr xs ++ "]"
  | .obj fields => "\x7b" ++ jsonStringifyObj fields ++ "\x7d"

def jsonStringifyArr : List JsonValue → String
  | [] => ""
  | x :: rest =>
    jsonStringify x ++ (if rest.isEmpty then "" else ",") ++ jsonStringifyArr rest

def jsonStringifyObj : List (String × JsonValue) → String
  | [] => ""
  | (k, v) :: rest =>
    "\"" ++ escapeJson k ++ "\":" ++ jsonStringify v
      ++ (if rest.isEmpty then "" else ",") ++ jsonStringifyObj rest

end

/-- JavaScript truthiness of a JSON value (`null`, `false`, `0` and the
empty string are falsy; objects and arrays are always truthy). -/
def jsTruthy : JsonValue → Bool
  | .null => false
  | .bool b => b
  | .num n => n != 0
  | .str s => s != ""
  | .arr _ => true
  | .obj _ => true

/-- A request-body payload: a serializable JSON value, or a (truthy)
value on which JSON.stringify throws. -/
inductive Payload where
  | json (j : JsonValue)
  | circular

def payloadTruthy : Payload → Bool
  | .json j => jsTruthy j
  | .circular => true

/-- JSON.stringify on a payload; `none` models a throw. -/
def payloadStringify : Payload → Option String
  | .json j => some (jsonStringify j)
  | .circular => none

/-- First-match association-list lookup, the model of a JS property
access `m[k]` on an object built in insertion order. -/
def lookupKey {α : Type} (k : String) : List (String × α) → Option α
  | [] => none
  | (k2, v) :: rest => if k2 = k then some v else lookupKey k rest

def isPrefixList : List Char → List Char → Bool
  | [], _ => true
  | _ :: _, [] => false
  | p :: ps, c :: cs => p == c && isPrefixList ps cs

/-- The ECMAScript GetSubstitution expansion of a replacement string for
a string-pattern replace: matched is the pattern text, str the subject,
position the character index of the match.  Dollar-dollar yields a
dollar, dollar-ampersand the matched text, dollar-backquote the text
before the match, dollar-quote the text after the match; any other
dollar sequence is copied literally (a string pattern has no capture
groups, so capture references stay literal).  The backquote and quote
characters are written by code to keep the source ASCII-clean. -/
def getSubstitution (matched str : List Char) (position : Nat) : List Char → List Char
  | [] => []
  | c :: rest =>
    if c = '$' then
      match rest with
      | [] => ['$']
      | d :: rest2 =>
        if d = '$' then '$' :: getSubstitution matched str position rest2
        else if d = '&' then matched ++ getSubstitution matched str position rest2
        else if d = Char.ofNat 96 then
          str.take position ++ getSubstitution matched str position rest2
        else if d = Char.ofNat 39 then
          str.drop (position + matched.length) ++ getSubstitution matched str position rest2
        else '$' :: d :: getSubstitution matched str position rest2
    else c :: getSubstitution matched str position rest

/-- First-occurrence replacement on character lists at a tracked match
position, the model of String.prototype.replace with a string pattern:
the replacement string goes through GetSubstitution. -/
def replaceFirstFrom (pat repl orig : List Char) : Nat → List Char → List Char
  | pos, [] => if isPrefixList pat [] then getSubstitution pat orig pos repl else []
  | pos, c :: cs =>
    if isPrefixList pat (c :: cs) then
      getSubstitution pat orig pos repl ++ (c :: cs).drop pat.length
    else c :: replaceFirstFrom pat repl orig (pos + 1) cs

def replaceFirst (s pat repl : String) : String :=
  String.mk (replaceFirstFrom pat.data repl.data s.data 0 s.data)

/-- The replacement described by the claim's words: the first occurrence
of the pattern replaced by the stringified value taken literally, with no
GetSubstitution expansion.  Kept only to compare the program's behavior
against the claim. -/
def replaceFirstCharsLiteral (pat repl : List Char) : List Char → List Char
  | [] => if isPrefixList pat [] then repl else []
  | c :: cs =>
    if isPrefixList pat (c :: cs) then repl ++ (c :: cs).drop pat.length
    else c :: replaceFirstCharsLiteral pat repl cs

def replaceFirstLiteral (s pat repl : String) : String :=
  String.mk (replaceFirstCharsLiteral pat.data repl.data s.data)

/-- Whether `pat` occurs as a contiguous substring of `s` (used to state
the model-level properties of `replaceFirst`). -/
def occursList (pat : List Char) : List Char → Bool
  | [] => isPrefixList pat []
  | c :: cs => isPrefixList pat (c :: cs) || occursList pat cs

def occursIn (s pat : String) : Bool :=
  occursList pat.data s.data

/-- The model of JavaScript s.slice(0, -1): drop the last character. -/
def sliceDropLast (s : String) : String :=
  String.mk s.data.dropLast

/-- Folds the entries of the path map over the template, replacing for
each entry the first occurrence of the literal token made of the key in
braces; `none` models a throw raised by string coercion of a value. -/
def foldPathEntries : List (String × Option String) → String → Option String
  | [], acc => some acc
  | (k, v) :: rest, acc =>
    match v with
    | none => none
    | some s => foldPathEntries rest (replaceFirst acc ("\x7b" ++ k ++ "\x7d") s)

/-- Model of Client.#serializePathParams: replace each placeholder in map
iteration order; the surrounding try/catch returns the original template
on any internal throw.  A `none` map models an absent argument. -/
def serializePathParams (path : String) (params : Option (List (String × Option String))) : String :=
  match foldPathEntries (params.getD []) path with
  | some s => s
  | none => path

def foldQueryEntries : List (String × Option String) → String → Option String
  | [], acc => some acc
  | (k, v) :: rest, acc =>
    match v with
    | none => none
    | some s => foldQueryEntries rest (acc ++ k ++ "=" ++ s ++ "&")

/-- Model of Client.#serializeQueryParams: fold key=value& onto an
accumulator seeded with the question mark, then slice(0, -1); the
try/catch returns the empty string on any internal throw. -/
def serializeQueryParams (query : Option (List (String × Option String))) : String :=
  match foldQueryEntries (query.getD []) "?" with
  | some s => sliceDropLast s
  | none => ""

structure SerializedBody where
  contentType : String
  requestBody : String
deriving DecidableEq, Repr

/-- Model of Client.#serializeRequestBody.  The content type is the first
key of the content map when that key is truthy (a non-empty string),
otherwise "application/json"; the body is JSON.stringify of the value
stored under the chosen content type, replaced by the empty object when
that value is falsy.  An absent content map makes the property access
throw, and a payload on which JSON.stringify throws is caught as well; in
both cases the catch clause returns the documented default. -/
def serializeRequestBody (content : Option (List (String × Payload))) : SerializedBody :=
  match content with
  | none => ⟨"application/json", jsonStringify (.obj [])⟩
  | some entries =>
    let contentType :=
      match entries.head? with
      | some kv => if kv.1 = "" then "application/json" else kv.1
      | none => "application/json"
    let payload :=
      match lookupKey contentType entries with
      | some p => if payloadTruthy p then p else Payload.json (.obj [])
      | none => Payload.json (.obj [])
    match payloadStringify payload with
    | some s => ⟨contentType, s⟩
    | none => ⟨"application/json", jsonStringify (.obj [])⟩

/-- Model of the fetch RequestInit descriptor: the fields the library
touches (method, headers, body) plus `extra`, standing for all other
transport options the caller may have set (credentials, mode, ...). -/
structure RequestInit where
  method : Option String := none
  headers : Option (List (String × String)) := none
  body : Option String := none
  extra : List (String × String) := []
deriving DecidableEq, Repr

/-- Model of CustomRequestInit = Omit of RequestInit without method and
body: the caller-supplied overrides object. -/
structure CustomRequestInit where
  headers : Option (List (String × String)) := none
  extra : List (String × String) := []
deriving DecidableEq, Repr

/-- The caller's overrides object viewed as a RequestInit (in the source
this is the very same object; the method and body properties it cannot
carry read as absent). -/
def CustomRequestInit.toRequestInit (c : CustomRequestInit) : RequestInit :=
  { method := none, headers := c.headers, body := none, extra := c.extra }

/-- Model of a fetch Response: `body` is the truthiness of the body
stream (null for a bodyless response), `json` is the outcome of the
json() accessor (`Except.error` models a rejected parse), and the rest
are the ordinary data fields of a response. -/
structure Response where
  body : Bool
  json : Except String JsonValue
  status : Nat
  statusText : String
  ok : Bool
  headers : List (String × String)

/-- The response as typed by Omit of Response without json: every field
of the original response except the body-decoding accessor. -/
structure RawResponse where
  body : Bool
  status : Nat
  statusText : String
  ok : Bool
  headers : List (String × String)

def rawOf (r : Response) : RawResponse :=
  ⟨r.body, r.status, r.statusText, r.ok, r.headers⟩

/-- The envelope returned to the caller; the source names the second
field requestResponse (the spec calls it rawResponse). -/
structure Envelope where
  data : JsonValue
  requestResponse : RawResponse

/-- Model of Client.#response: parse the body as JSON when the response
declares one, otherwise use the empty object. -/
def responseDecode (response : Response) : Except String Envelope :=
  if response.body then
    match response.json with
    | .ok j => .ok ⟨j, rawOf response⟩
    | .error e => .error e
  else
    .ok ⟨.obj [], rawOf response⟩

/-- A middleware: receives the request info string and the (mutable)
descriptor; its returned descriptor is the in-place mutated object, and
an error is a rejected or throwing hook. -/
abbrev MwFun := String → RequestInit → Except String RequestInit

/-- An afterware: receives the frozen descriptor and the response;
observation only (the source types the descriptor Readonly). -/
abbrev AwFun := RequestInit → Response → Except String Unit

/-- The external transport (the source captures the global fetch). -/
abbrev TransportFun := String → RequestInit → Except String Response

structure ClientConfig where
  baseUrl : String
  middlewares : Option (List MwFun) := none
  afterwares : Option (List AwFun) := none

structure Client where
  baseUrl : String
  middlewares : List MwFun := []
  afterwares : List AwFun := []

/-- Model of the Client constructor: absent hook lists default to []. -/
def Client.ofConfig (config : ClientConfig) : Client :=
  ⟨config.baseUrl, config.middlewares.getD [], config.afterwares.getD []⟩

/-- The labels of pipeline events, used to state execution order. -/
inductive EvLabel where
  | mw (i : Nat)
  | transport
  | aw (i : Nat)
  | decode
deriving DecidableEq, Repr

/-- One observed pipeline step, carrying the descriptor value that was
passed to that step. -/
inductive Event where
  | mw (i : Nat) (info : String) (init : RequestInit)
  | transport (info : String) (init : RequestInit)
  | aw (i : Nat) (init : RequestInit)
  | decode
deriving DecidableEq, Repr

def Event.label : Event → EvLabel
  | .mw i _ _ => .mw i
  | .transport _ _ => .transport
  | .aw i _ => .aw i
  | .decode => .decode

def Event.descriptor : Event → Option RequestInit
  | .mw _ _ init => some init
  | .transport _ init => some init
  | .aw _ init => some init
  | .decode => none

abbrev Trace := List Event

/-- The middleware loop of Client.#request: each middleware is awaited in
turn on the current descriptor state; returns the trace of middleware
invocations (each event carrying the descriptor it received), the
descriptor state when the loop stopped, and the raised error if any. -/
def runMiddlewares : List MwFun → String → RequestInit → Nat → Trace × RequestInit × Option String
  | [], _, init, _ => ([], init, none)
  | m :: rest, info, init, i =>
    match m info init with
    | .error e => ([.mw i info init], init, some e)
    | .ok init2 =>
      let r := runMiddlewares rest info init2 (i + 1)
      (.mw i info init :: r.1, r.2)

/-- The afterware loop of Client.#request. -/
def runAfterwares : List AwFun → RequestInit → Response → Nat → Trace × Option String
  | [], _, _, _ => ([], none)
  | a :: rest, init, resp, i =>
    match a init resp with
    | .error e => ([.aw i init], some e)
    | .ok _ =>
      let r := runAfterwares rest init resp (i + 1)
      (.aw i init :: r.1, r.2)

/-- Model of Client.#request: prefix the base URL, default the
descriptor, run the middlewares, call the transport, run the afterwares,
decode.  Returns the trace of performed steps, the call result, and the
final state of the (single, shared) descriptor object, which is the
caller-visible state of a supplied overrides object after the call. -/
def Client.request (c : Client) (fetcher : TransportFun) (path : String)
    (requestInit : Option RequestInit) : Trace × Except String Envelope × RequestInit :=
  let requestInfo := c.baseUrl ++ path
  let init := requestInit.getD {}
  let mwRun := runMiddlewares c.middlewares requestInfo init 0
  match mwRun.2.2 with
  | some e => (mwRun.1, .error e, mwRun.2.1)
  | none =>
    let fin := mwRun.2.1
    match fetcher requestInfo fin with
    | .error e => (mwRun.1 ++ [.transport requestInfo fin], .error e, fin)
    | .ok resp =>
      let awRun := runAfterwares c.afterwares fin resp 0
      match awRun.2 with
      | some e => (mwRun.1 ++ [.transport requestInfo fin] ++ awRun.1, .error e, fin)
      | none =>
        (mwRun.1 ++ [.transport requestInfo fin] ++ awRun.1 ++ [.decode],
          responseDecode resp, fin)

/-- The options bag of a verb method: content, path and query maps (each
possibly absent). -/
structure Options where
  content : Option (List (String × Payload)) := none
  path : Option (List (String × Option String)) := none
  query : Option (List (String × Option String)) := none

/-- Model of the JS expression s or-else the empty string, applied by the
get method to the serialized query (the identity on strings). -/
def jsOrEmpty (s : String) : String :=
  if s = "" then "" else s

/-- The headers object literal of the verb methods: the computed
Content-Type entry spread with the caller headers, later entries
overriding earlier ones while keeping the position of overridden keys. -/
def objSpread (base extra : List (String × String)) : List (String × String) :=
  base.map (fun kv => (kv.1, (lookupKey kv.1 extra).getD kv.2))
    ++ extra.filter (fun kv => (lookupKey kv.1 base).isNone)

/-- Model of Client.get. -/
def Client.get (c : Client) (fetcher : TransportFun) (urlPath : String)
    (options : Options) (requestInit : Option CustomRequestInit) :
    Trace × Except String Envelope × RequestInit :=
  let contentType := (serializeRequestBody options.content).contentType
  let seralizedPath := serializePathParams urlPath options.path
  let serializedQuery := jsOrEmpty (serializeQueryParams options.query)
  let init0 := (requestInit.getD {}).toRequestInit
  let init : RequestInit :=
    { init0 with
      method := some "GET"
      headers := some (objSpread [("Content-Type", contentType)]
        ((requestInit.bind CustomRequestInit.headers).getD [])) }
  c.request fetcher (seralizedPath ++ serializedQuery) (some init)

/-- Model of Client.post. -/
def Client.post (c : Client) (fetcher : TransportFun) (urlPath : String)
    (options : Options) (requestInit : Option CustomRequestInit) :
    Trace × Except String Envelope × RequestInit :=
  let serialized := serializeRequestBody options.content
  let seralizedPath := serializePathParams urlPath options.path
  let serializedQuery := serializeQueryParams options.query
  let init0 := (requestInit.getD {}).toRequestInit
  let init : RequestInit :=
    { init0 with
      method := some "POST"
      headers := some (objSpread [("Content-Type", serialized.contentType)]
        ((requestInit.bind CustomRequestInit.headers).getD []))
      body := some serialized.requestBody }
  c.request fetcher (seralizedPath ++ serializedQuery) (some init)

/-- Model of Client.put. -/
def Client.put (c : Client) (fetcher : TransportFun) (urlPath : String)
    (options : Options) (requestInit : Option CustomRequestInit) :
    Trace × Except String Envelope × RequestInit :=
  let serialized := serializeRequestBody options.content
  let seralizedPath := serializePathParams urlPath options.path
  let serializedQuery := serializeQueryParams options.query
  let init0 := (requestInit.getD {}).toRequestInit
  let init : RequestInit :=
    { init0 with
      method := some "PUT"
      headers := some (objSpread [("Content-Type", serialized.contentType)]
        ((requestInit.bind CustomRequestInit.headers).getD []))
      body := some serialized.requestBody }
  c.request fetcher (seralizedPath ++ serializedQuery) (some init)

/-- Model of Client.delete. -/
def Client.delete (c : Client) (fetcher : TransportFun) (urlPath : String)
    (options : Options) (requestInit : Option CustomRequestInit) :
    Trace × Except String Envelope × RequestInit :=
  let serialized := serializeRequestBody options.content
  let seralizedPath := serializePathParams urlPath options.path
  let serializedQuery := serializeQueryParams options.query
  let init0 := (requestInit.getD {}).toRequestInit
  let init : RequestInit :=
    { init0 with
      method := some "DELETE"
      headers := some (objSpread [("Content-Type", serialized.contentType)]
        ((requestInit.bind CustomRequestInit.headers).getD []))
      body := some serialized.requestBody }
  c.request fetcher (seralizedPath ++ serializedQuery) (some init)

/-- The four verb methods, for claims quantified over every verb. -/
inductive Verb where
  | get
  | post
  | put
  | delete
deriving DecidableEq, Repr

/-- Dispatch to the verb method named by v. -/
def Client.call (c : Client) (v : Verb) (fetcher : TransportFun) (urlPath : String)
    (options : Options) (requestInit : Option CustomRequestInit) :
    Trace × Except String Envelope × RequestInit :=
  match v with
  | .get => c.get fetcher urlPath options requestInit
  | .post => c.post fetcher urlPath options requestInit
  | .put => c.put fetcher urlPath options requestInit
  | .delete => c.delete fetcher urlPath options requestInit

/-- The HTTP method string a verb method writes into the descriptor. -/
def verbMethod : Verb → String
  | .get => "GET"
  | .post => "POST"
  | .put => "PUT"
  | .delete => "DELETE"

/-- The body a verb method attaches: the get method attaches none, the
other three attach the serialized body. -/
def verbBody : Verb → String → Option String
  | .get, _ => none
  | .post, rb => some rb
  | .put, rb => some rb
  | .delete, rb => some rb

/-- The descriptor a verb method builds before handing it to the
pipeline: the caller's overrides object with method, headers (and, for
the body-carrying verbs, body) set on it. -/
def builtInit (v : Verb) (options : Options) (requestInit : Option CustomRequestInit) :
    RequestInit :=
  { (requestInit.getD {}).toRequestInit with
    method := some (verbMethod v)
    headers := some (objSpread
      [("Content-Type", (serializeRequestBody options.content).contentType)]
      ((requestInit.bind CustomRequestInit.headers).getD []))
    body := verbBody v (serializeRequestBody options.content).requestBody }

/-- Sequential composition of the middleware functions themselves,
starting from a given descriptor state: the reference description of the
mutation thread through the middleware chain. -/
def applyMws : List MwFun → String → RequestInit → Except String RequestInit
  | [], _, init => .ok init
  | m :: rest, info, init =>
    match m info init with
    | .error e => .error e
    | .ok init2 => applyMws rest info init2

/-- A middleware that never raises. -/
def MwOk (m : MwFun) : Prop :=
  ∀ info init, ∃ r, m info init = .ok r

/-- An afterware that never raises. -/
def AwOk (a : AwFun) : Prop :=
  ∀ init resp, a init resp = .ok ()

/-- A transport that never rejects. -/
def TrOk (fetcher : TransportFun) : Prop :=
  ∀ info init, ∃ resp, fetcher info init = .ok resp

/-- The per-entry string built by the query serializer loop, used to
state what the loop of #serializeQueryParams produces. -/
def queryConcat : List (String × String) → String
  | [] => ""
  | kv :: rest => kv.1 ++ "=" ++ kv.2 ++ "&" ++ queryConcat rest

/-! Concrete fixtures used by the witnesses. -/

def respW : Response := ⟨true, .ok (.obj [("y", .num 2)]), 200, "OK", true, []⟩

def mwAddHeader : MwFun :=
  fun _ i => .ok { i with headers := some ((i.headers.getD []) ++ [("X-A", "1")]) }

def mwKeep : MwFun := fun _ i => .ok i

def mwBoom : MwFun := fun _ _ => .error "boom"

def awNoop : AwFun := fun _ _ => .ok ()

def trW : TransportFun := fun _ _ => .ok respW

def clientW : Client := ⟨"https://api", [mwAddHeader, mwKeep], [awNoop, awNoop]⟩

def clientBoom : Client := ⟨"https://api", [mwKeep, mwBoom], [awNoop]⟩

def optsW : Options :=
  { content := some [("application/json", Payload.json (JsonValue.obj [("x", JsonValue.num 1)]))]
    path := some [("id", some "7")]
    query := some [("a", some "1")] }

def criW : CustomRequestInit :=
  { headers := some [("Content-Type", "text/plain"), ("X-B", "2")]
    extra := [("mode", "cors")] }

/-! Helper lemmas about the pipeline. -/

theorem jsOrEmpty_eq (s : String) : jsOrEmpty s = s := by
  by_cases h : s = "" <;> simp [jsOrEmpty, h]

theorem call_eq (c : Client) (v : Verb) (fetcher : TransportFun) (u : String)
    (o : Options) (ri : Option CustomRequestInit) :
    c.call v fetcher u o ri
      = c.request fetcher (serializePathParams u o.path ++ serializeQueryParams o.query)
          (some (builtInit v o ri)) := by
  cases v with
  | get =>
    have h : c.get fetcher u o ri
        = c.request fetcher
            (serializePathParams u o.path ++ jsOrEmpty (serializeQueryParams o.query))
            (some (builtInit .get o ri)) := rfl
    rw [jsOrEmpty_eq] at h
    exact h
  | post => rfl
  | put => rfl
  | delete => rfl

theorem runMiddlewares_cons (m : MwFun) (rest : List MwFun) (info : String)
    (init : RequestInit) (i : Nat) :
    runMiddlewares (m :: rest) info init i
      = match m info init with
        | .error e => ([.mw i info init], init, some e)
        | .ok init2 =>
          let r := runMiddlewares rest info init2 (i + 1)
          (.mw i info init :: r.1, r.2) := rfl

theorem runMiddlewares_all_ok :
    ∀ (mws : List MwFun) (info : String) (init : RequestInit) (i : Nat),
    (∀ m ∈ mws, MwOk m) →
    ∃ t fin, runMiddlewares mws info init i = (t, fin, none)
      ∧ t.map Event.label = (List.range' i mws.length).map EvLabel.mw
      ∧ applyMws mws info init = .ok fin
      ∧ (∀ e, t.head? = some e → e.descriptor = some init) := by
  intro mws
  induction mws with
  | nil =>
    intro info init i _
    exact ⟨[], init, rfl, rfl, rfl, by intro e he; cases he⟩
  | cons m rest ih =>
    intro info init i h
    obtain ⟨r, hr⟩ := h m (List.mem_cons_self m rest) info init
    obtain ⟨t, fin, h1, h2, h3, _⟩ :=
      ih info r (i + 1) (fun m2 hm2 => h m2 (List.mem_cons_of_mem m hm2))
    refine ⟨.mw i info init :: t, fin, ?_, ?_, ?_, ?_⟩
    · rw [runMiddlewares_cons, hr]
      simp [h1]
    · simp [Event.label, h2, List.range'_succ]
    · simp [applyMws, hr, h3]
    · intro e he
      simp only [List.head?_cons, Option.some.injEq] at he
      subst he
      rfl

theorem runMiddlewares_fail :
    ∀ (pre : List MwFun) (bad : MwFun) (post : List MwFun) (info : String)
      (init : RequestInit) (i : Nat) (e : String),
    (∀ m ∈ pre, MwOk m) → (∀ a b, bad a b = .error e) →
    ∃ t fin, runMiddlewares (pre ++ bad :: post) info init i = (t, fin, some e)
      ∧ t.map Event.label = (List.range' i (pre.length + 1)).map EvLabel.mw := by
  intro pre
  induction pre with
  | nil =>
    intro bad post info init i e _ hbad
    refine ⟨[.mw i info init], init, ?_, ?_⟩
    · rw [List.nil_append, runMiddlewares_cons, hbad]
    · simp [Event.label, List.range'_succ]
  | cons m rest ih =>
    intro bad post info init i e h hbad
    obtain ⟨r, hr⟩ := h m (List.mem_cons_self m rest) info init
    obtain ⟨t, fin, h1, h2⟩ :=
      ih bad post info r (i + 1) e (fun m2 hm2 => h m2 (List.mem_cons_of_mem m hm2)) hbad
    refine ⟨.mw i info init :: t, fin, ?_, ?_⟩
    · rw [List.cons_append, runMiddlewares_cons, hr]
      simp [h1]
    · simp [Event.label, h2, List.range'_succ]

theorem runAfterwares_cons (a : AwFun) (rest : List AwFun) (init : RequestInit)
    (resp : Response) (i : Nat) :
    runAfterwares (a :: rest) init resp i
      = match a init resp with
        | .error e => ([.aw i init], some e)
        | .ok _ =>
          let r := runAfterwares rest init resp (i + 1)
          (.aw i init :: r.1, r.2) := rfl

theorem runAfterwares_all_ok :
    ∀ (aws : List AwFun) (init : RequestInit) (resp : Response) (i : Nat),
    (∀ a ∈ aws, AwOk a) →
    ∃ t, runAfterwares aws init resp i = (t, none)
      ∧ t.map Event.label = (List.range' i aws.length).map EvLabel.aw
      ∧ ∀ e ∈ t, e.descriptor = some init := by
  intro aws
  induction aws with
  | nil =>
    intro init resp i _
    exact ⟨[], rfl, rfl, by intro e he; cases he⟩
  | cons a rest ih =>
    intro init resp i h
    have hr := h a (List.mem_cons_self a rest) init resp
    obtain ⟨t, h1, h2, h3⟩ :=
      ih init resp (i + 1) (fun a2 ha2 => h a2 (List.mem_cons_of_mem a ha2))
    refine ⟨.aw i init :: t, ?_, ?_, ?_⟩
    · rw [runAfterwares_cons, hr]
      simp [h1]
    · simp [Event.label, h2, List.range'_succ]
    · intro e he
      rcases List.mem_cons.mp he with rfl | he2
      · rfl
      · exact h3 e he2

theorem request_all_ok (c : Client) (fetcher : TransportFun) (p : String) (init : RequestInit)
    (hm : ∀ m ∈ c.middlewares, MwOk m) (ha : ∀ a ∈ c.afterwares, AwOk a) (ht : TrOk fetcher) :
    ∃ t1 t2 fin resp,
      c.request fetcher p (some init)
        = (t1 ++ [.transport (c.baseUrl ++ p) fin] ++ t2 ++ [.decode], responseDecode resp, fin)
      ∧ t1.map Event.label = (List.range' 0 c.middlewares.length).map EvLabel.mw
      ∧ t2.map Event.label = (List.range' 0 c.afterwares.length).map EvLabel.aw
      ∧ applyMws c.middlewares (c.baseUrl ++ p) init = .ok fin
      ∧ fetcher (c.baseUrl ++ p) fin = .ok resp
      ∧ (∀ e, t1.head? = some e → e.descriptor = some init)
      ∧ (∀ e ∈ t2, e.descriptor = some fin) := by
  obtain ⟨t1, fin, h1, h2, h3, h4⟩ := runMiddlewares_all_ok c.middlewares (c.baseUrl ++ p) init 0 hm
  obtain ⟨resp, hresp⟩ := ht (c.baseUrl ++ p) fin
  obtain ⟨t2, g1, g2, g3⟩ := runAfterwares_all_ok c.afterwares fin resp 0 ha
  refine ⟨t1, t2, fin, resp, ?_, h2, g2, h3, hresp, h4, g3⟩
  simp [Client.request, h1, hresp, g1]

theorem request_mw_fail (c : Client) (fetcher : TransportFun) (p : String) (init : RequestInit)
    (pre : List MwFun) (bad : MwFun) (post : List MwFun) (e : String)
    (hsplit : c.middlewares = pre ++ bad :: post)
    (hpre : ∀ m ∈ pre, MwOk m) (hbad : ∀ a b, bad a b = .error e) :
    ∃ t fin, c.request fetcher p (some init) = (t, .error e, fin)
      ∧ t.map Event.label = (List.range' 0 (pre.length + 1)).map EvLabel.mw := by
  obtain ⟨t, fin, h1, h2⟩ :=
    runMiddlewares_fail pre bad post (c.baseUrl ++ p) init 0 e hpre hbad
  refine ⟨t, fin, ?_, h2⟩
  simp [Client.request, hsplit, h1]

theorem request_head (c : Client) (fetcher : TransportFun) (p : String) (init : RequestInit) :
    ∃ ev, (c.request fetcher p (some init)).1.head? = some ev ∧ ev.descriptor = some init := by
  cases hm : c.middlewares with
  | nil =>
    cases hf : fetcher (c.baseUrl ++ p) init with
    | error e =>
      exact ⟨.transport (c.baseUrl ++ p) init, by simp [Client.request, hm, runMiddlewares, hf], rfl⟩
    | ok resp =>
      rcases haw : runAfterwares c.afterwares init resp 0 with ⟨t2, err2⟩
      cases err2 with
      | none =>
        exact ⟨.transport (c.baseUrl ++ p) init, by simp [Client.request, hm, runMiddlewares, hf, haw], rfl⟩
      | some e2 =>
        exact ⟨.transport (c.baseUrl ++ p) init, by simp [Client.request, hm, runMiddlewares, hf, haw], rfl⟩
  | cons m rest =>
    refine ⟨.mw 0 (c.baseUrl ++ p) init, ?_, rfl⟩
    rcases hr : m (c.baseUrl ++ p) init with e | r
    · simp [Client.request, hm, runMiddlewares_cons, hr]
    · rcases hrest : runMiddlewares rest (c.baseUrl ++ p) r 1 with ⟨t1, fin, err1⟩
      cases err1 with
      | some e1 => simp [Client.request, hm, runMiddlewares_cons, hr, hrest]
      | none =>
        cases hf : fetcher (c.baseUrl ++ p) fin with
        | error e => simp [Client.request, hm, runMiddlewares_cons, hr, hrest, hf]
        | ok resp =>
          rcases haw : runAfterwares c.afterwares fin resp 0 with ⟨t2, err2⟩
          cases err2 with
          | some e2 => simp [Client.request, hm, runMiddlewares_cons, hr, hrest, hf, haw]
          | none => simp [Client.request, hm, runMiddlewares_cons, hr, hrest, hf, haw]

/-! Helper lemmas about the serializers. -/

theorem foldPath_somes (entries : List (String × String)) : ∀ acc,
    foldPathEntries (entries.map (fun kv => (kv.1, some kv.2))) acc
      = some (entries.foldl
          (fun acc kv => replaceFirst acc ("\x7b" ++ kv.1 ++ "\x7d") kv.2) acc) := by
  induction entries with
  | nil => intro acc; rfl
  | cons kv rest ih =>
    intro acc
    obtain ⟨k, v⟩ := kv
    simp only [List.map_cons, List.foldl_cons, foldPathEntries]
    exact ih _

theorem foldPath_fails :
    ∀ (entries : List (String × Option String)) (acc : String),
    (∃ kv ∈ entries, kv.2 = none) → foldPathEntries entries acc = none := by
  intro entries
  induction entries with
  | nil => intro acc h; obtain ⟨kv, hmem, _⟩ := h; cases hmem
  | cons kv rest ih =>
    intro acc h
    obtain ⟨k, v⟩ := kv
    cases v with
    | none => rfl
    | some s =>
      obtain ⟨kv2, hmem, hv2⟩ := h
      rcases List.mem_cons.mp hmem with rfl | hmem2
      · cases hv2
      · exact ih _ ⟨kv2, hmem2, hv2⟩

theorem foldQuery_somes (entries : List (String × String)) : ∀ acc,
    foldQueryEntries (entries.map (fun kv => (kv.1, some kv.2))) acc
      = some (acc ++ queryConcat entries) := by
  induction entries with
  | nil => intro acc; simp [foldQueryEntries, queryConcat, String.append_empty]
  | cons kv rest ih =>
    intro acc
    obtain ⟨k, v⟩ := kv
    simp only [List.map_cons, foldQueryEntries, queryConcat, ih, Option.some.injEq]
    simp [String.append_assoc]

theorem foldQuery_fails :
    ∀ (entries : List (String × Option String)) (acc : String),
    (∃ kv ∈ entries, kv.2 = none) → foldQueryEntries entries acc = none := by
  intro entries
  induction entries with
  | nil => intro acc h; obtain ⟨kv, hmem, _⟩ := h; cases hmem
  | cons kv rest ih =>
    intro acc h
    obtain ⟨k, v⟩ := kv
    cases v with
    | none => rfl
    | some s =>
      obtain ⟨kv2, hmem, hv2⟩ := h
      rcases List.mem_cons.mp hmem with rfl | hmem2
      · cases hv2
      · exact ih _ ⟨kv2, hmem2, hv2⟩

theorem sliceDropLast_amp (s : String) : sliceDropLast (s ++ "&") = s := by
  have hd : (s ++ "&").data = s.data ++ ['&'] := String.data_append s "&"
  unfold sliceDropLast
  rw [hd, List.dropLast_concat]

theorem queryConcat_snoc (es : List (String × String)) (k v : String) :
    queryConcat (es ++ [(k, v)]) = queryConcat es ++ (k ++ "=" ++ v ++ "&") := by
  induction es with
  | nil => simp [queryConcat, String.append_empty]
  | cons kv rest ih => simp [queryConcat, ih, String.append_assoc]

theorem replaceFirstFrom_not_occurs (pat repl orig : List Char) :
    ∀ (l : List Char) (pos : Nat), occursList pat l = false →
      replaceFirstFrom pat repl orig pos l = l := by
  intro l
  induction l with
  | nil =>
    intro pos h
    simp only [occursList] at h
    simp [replaceFirstFrom, h]
  | cons c cs ih =>
    intro pos h
    simp only [occursList, Bool.or_eq_false_iff] at h
    simp [replaceFirstFrom, h.1, ih (pos + 1) h.2]

theorem replaceFirst_not_occurs (s pat v : String) (h : occursIn s pat = false) :
    replaceFirst s pat v = s := by
  have h2 : occursList pat.data s.data = false := h
  unfold replaceFirst
  rw [replaceFirstFrom_not_occurs pat.data v.data s.data s.data 0 h2]

theorem getSubstitution_no_dollar (matched str : List Char) (pos : Nat) :
    ∀ repl : List Char, repl.all (fun c => c ≠ '$') = true →
      getSubstitution matched str pos repl = repl := by
  intro repl
  induction repl with
  | nil => intro _; rfl
  | cons c rest ih =>
    intro h
    simp only [List.all_cons, Bool.and_eq_true, decide_eq_true_eq] at h
    rw [getSubstitution.eq_def]
    simp [h.1, ih h.2]

theorem replaceFirstFrom_literal_no_dollar (pat repl orig : List Char)
    (hrepl : repl.all (fun c => c ≠ '$') = true) :
    ∀ (l : List Char) (pos : Nat),
      replaceFirstFrom pat repl orig pos l = replaceFirstCharsLiteral pat repl l := by
  intro l
  induction l with
  | nil =>
    intro pos
    simp [replaceFirstFrom, replaceFirstCharsLiteral,
      getSubstitution_no_dollar pat orig pos repl hrepl]
  | cons c cs ih =>
    intro pos
    by_cases hp : isPrefixList pat (c :: cs) = true
    · simp [replaceFirstFrom, replaceFirstCharsLiteral, hp,
        getSubstitution_no_dollar pat orig pos repl hrepl]
    · simp [replaceFirstFrom, replaceFirstCharsLiteral, hp, ih (pos + 1)]

theorem replaceFirst_literal_no_dollar (s pat v : String)
    (h : v.data.all (fun c => c ≠ '$') = true) :
    replaceFirst s pat v = replaceFirstLiteral s pat v := by
  unfold replaceFirst replaceFirstLiteral
  rw [replaceFirstFrom_literal_no_dollar pat.data v.data s.data h s.data 0]


/-! Helper lemmas about the header spread. -/

theorem lookupKey_filter_base (ct v0 k : String) (hk : k ≠ ct) :
    ∀ l : List (String × String),
    lookupKey k (l.filter (fun kv => (lookupKey kv.1 [(ct, v0)]).isNone)) = lookupKey k l := by
  intro l
  induction l with
  | nil => rfl
  | cons kv rest ih =>
    obtain ⟨k2, v2⟩ := kv
    rw [List.filter_cons]
    by_cases hc : ct = k2
    · have hp : (lookupKey (k2, v2).1 [(ct, v0)]).isNone = false := by
        simp [lookupKey, hc]
      rw [hp]
      have hne : ¬ (k2 = k) := by
        rw [← hc]
        exact fun h => hk h.symm
      simp only [Bool.false_eq_true, if_false]
      rw [ih]
      simp [lookupKey, hne]
    · have hp : (lookupKey (k2, v2).1 [(ct, v0)]).isNone = true := by
        simp [lookupKey, hc]
      rw [hp]
      simp only [if_true]
      by_cases h2 : k2 = k
      · simp [lookupKey, h2]
      · have e1 : ∀ l : List (String × String), lookupKey k ((k2, v2) :: l) = lookupKey k l := by
          intro l
          show (if k2 = k then some v2 else lookupKey k l) = lookupKey k l
          rw [if_neg h2]
        rw [e1, e1, ih]

theorem objSpread_lookup_base (ct v0 : String) (extra : List (String × String)) :
    lookupKey ct (objSpread [(ct, v0)] extra) = some ((lookupKey ct extra).getD v0) := by
  simp [objSpread, lookupKey]

theorem objSpread_lookup_other (ct v0 k : String) (hk : k ≠ ct) (extra : List (String × String)) :
    lookupKey k (objSpread [(ct, v0)] extra) = lookupKey k extra := by
  have hne : ¬ (ct = k) := fun h => hk h.symm
  simp only [objSpread, List.map_cons, List.map_nil, List.cons_append, List.nil_append,
    lookupKey, if_neg hne]
  exact lookupKey_filter_base ct v0 k hk extra

/-! The claims. -/

/-- Claim C3 counterexample: the claim states that for every non-empty
content map the serialized body equals the JSON wire form of the payload
stored under the first key; but for the content map storing the payload
false under "application/json" the code serializes the empty object,
because the property access is defaulted through a truthiness check
(content[contentType] or-else the empty object). -/
theorem c3_falsy_payload_counterexample :
    (serializeRequestBody
        (some [("application/json", Payload.json (JsonValue.bool false))])).requestBody
      = "\x7b\x7d"
    ∧ jsonStringify (JsonValue.bool false) = "false"
    ∧ (serializeRequestBody
        (some [("application/json", Payload.json (JsonValue.bool false))])).requestBody
      ≠ jsonStringify (JsonValue.bool false) := by
  refine ⟨rfl, rfl, by decide⟩

/-- Claim C3, amended: for every content map whose first key is a
non-empty string and whose first payload is serializable, body
construction returns the first key as the content type and, as the body,
the JSON serialization of that payload when the payload is truthy and of
the empty object when the payload is falsy (so for truthy payloads the
body equals the JSON wire form); when the map is absent or empty it
returns content type "application/json" and body "\x7b\x7d". -/
theorem c3_body_construction_amended :
    serializeRequestBody none = ⟨"application/json", "\x7b\x7d"⟩
    ∧ serializeRequestBody (some []) = ⟨"application/json", "\x7b\x7d"⟩
    ∧ (∀ (k : String) (j : JsonValue) (rest : List (String × Payload)), k ≠ "" →
        serializeRequestBody (some ((k, Payload.json j) :: rest))
          = ⟨k, jsonStringify (if jsTruthy j then j else JsonValue.obj [])⟩)
    ∧ (∀ (k : String) (j : JsonValue) (rest : List (String × Payload)),
        k ≠ "" → jsTruthy j = true →
        (serializeRequestBody (some ((k, Payload.json j) :: rest))).requestBody
          = jsonStringify j) := by
  have main : ∀ (k : String) (j : JsonValue) (rest : List (String × Payload)), k ≠ "" →
      serializeRequestBody (some ((k, Payload.json j) :: rest))
        = ⟨k, jsonStringify (if jsTruthy j then j else JsonValue.obj [])⟩ := by
    intro k j rest hk
    simp only [serializeRequestBody, List.head?_cons, if_neg hk, lookupKey, if_pos rfl]
    cases hj : jsTruthy j with
    | true => simp [payloadTruthy, hj, payloadStringify]
    | false => simp [payloadTruthy, hj, payloadStringify]
  refine ⟨rfl, rfl, main, ?_⟩
  intro k j rest hk hj
  rw [main k j rest hk, hj]
  simp

/-- Claim C4 counterexample: the claim states that each entry replaces
the first occurrence of the bracketed key with the stringified value, but
String.prototype.replace expands GetSubstitution directives in the
value: for the value made of a dollar and an ampersand the program
substitutes the matched token itself (leaving the template unchanged)
instead of that two-character value, and a doubled dollar collapses to a
single dollar. -/
theorem c4_dollar_directive_counterexample :
    serializePathParams "/u/\x7bid\x7d" (some [("id", some "$&")]) = "/u/\x7bid\x7d"
    ∧ replaceFirstLiteral "/u/\x7bid\x7d" "\x7bid\x7d" "$&" = "/u/$&"
    ∧ serializePathParams "/u/\x7bid\x7d" (some [("id", some "$&")])
        ≠ replaceFirstLiteral "/u/\x7bid\x7d" "\x7bid\x7d" "$&"
    ∧ serializePathParams "/u/\x7bid\x7d" (some [("id", some "$$")]) = "/u/$" := by
  exact ⟨by decide, by decide, by decide, by decide⟩

/-- Claim C4, amended: path substitution replaces, for each entry of the
path map in iteration order, the first occurrence of the key in literal
braces in the accumulated template by the GetSubstitution expansion of
the stringified value; a value containing no dollar character is
substituted literally.  An absent or empty map leaves the template
unchanged, and a key whose bracketed token does not occur in the
accumulated template leaves it unchanged for that key. -/
theorem c4_path_substitution :
    (∀ p, serializePathParams p none = p)
    ∧ (∀ p, serializePathParams p (some []) = p)
    ∧ (∀ (p : String) (entries : List (String × String)),
        serializePathParams p (some (entries.map (fun kv => (kv.1, some kv.2))))
          = entries.foldl (fun acc kv => replaceFirst acc ("\x7b" ++ kv.1 ++ "\x7d") kv.2) p)
    ∧ (∀ (acc k v : String), occursIn acc ("\x7b" ++ k ++ "\x7d") = false →
        replaceFirst acc ("\x7b" ++ k ++ "\x7d") v = acc)
    ∧ (∀ (s pat v : String), v.data.all (fun c => c ≠ '$') = true →
        replaceFirst s pat v = replaceFirstLiteral s pat v) := by
  refine ⟨fun p => rfl, fun p => rfl, ?_, ?_, ?_⟩
  · intro p entries
    simp [serializePathParams, foldPath_somes]
  · intro acc k v h
    exact replaceFirst_not_occurs acc ("\x7b" ++ k ++ "\x7d") v h
  · intro s pat v h
    exact replaceFirst_literal_no_dollar s pat v h

/-- Claim C4 witness: the spec example (dollar-free values substitute
literally) and a key absent from the template. -/
theorem c4_path_substitution_witness :
    serializePathParams "/users/\x7bid\x7d/posts/\x7bpostId\x7d"
        (some [("id", some "7"), ("postId", some "3")]) = "/users/7/posts/3"
    ∧ occursIn "/users" "\x7bzz\x7d" = false
    ∧ replaceFirst "/users" "\x7bzz\x7d" "9" = "/users"
    ∧ "7".data.all (fun c => c ≠ '$') = true
    ∧ replaceFirst "/users/\x7bid\x7d" "\x7bid\x7d" "7"
        = replaceFirstLiteral "/users/\x7bid\x7d" "\x7bid\x7d" "7" := by
  refine ⟨?_, by decide, c4_path_substitution.2.2.2.1 "/users" "zz" "9" (by decide), by decide,
    c4_path_substitution.2.2.2.2 "/users/\x7bid\x7d" "\x7bid\x7d" "7" (by decide)⟩
  have h := c4_path_substitution.2.2.1 "/users/\x7bid\x7d/posts/\x7bpostId\x7d"
    [("id", "7"), ("postId", "3")]
  exact h.trans (by decide)

/-- Claim C5: query construction appends key=value& for each entry in
iteration order to an accumulator seeded with a question mark and then
drops the final character; an absent or empty map yields the empty string
(not a bare question mark), and the last entry carries no trailing
ampersand. -/
theorem c5_query_construction :
    (∀ entries : List (String × String),
        serializeQueryParams (some (entries.map (fun kv => (kv.1, some kv.2))))
          = sliceDropLast ("?" ++ queryConcat entries))
    ∧ serializeQueryParams none = ""
    ∧ serializeQueryParams (some []) = ""
    ∧ (∀ (es : List (String × String)) (k v : String),
        serializeQueryParams (some ((es ++ [(k, v)]).map (fun kv => (kv.1, some kv.2))))
          = "?" ++ queryConcat es ++ k ++ "=" ++ v)
    ∧ (∀ k v : String, serializeQueryParams (some [(k, some v)]) = "?" ++ k ++ "=" ++ v) := by
  have main : ∀ entries : List (String × String),
      serializeQueryParams (some (entries.map (fun kv => (kv.1, some kv.2))))
        = sliceDropLast ("?" ++ queryConcat entries) := by
    intro entries
    simp [serializeQueryParams, foldQuery_somes]
  have snoc : ∀ (es : List (String × String)) (k v : String),
      serializeQueryParams (some ((es ++ [(k, v)]).map (fun kv => (kv.1, some kv.2))))
        = "?" ++ queryConcat es ++ k ++ "=" ++ v := by
    intro es k v
    rw [main, queryConcat_snoc]
    rw [show "?" ++ (queryConcat es ++ (k ++ "=" ++ v ++ "&"))
          = ("?" ++ queryConcat es ++ k ++ "=" ++ v) ++ "&" by
        simp [String.append_assoc]]
    exact sliceDropLast_amp _
  refine ⟨main, rfl, rfl, snoc, ?_⟩
  intro k v
  have h := snoc [] k v
  simpa [queryConcat, String.append_empty] using h

/-- Claim C7: each serializer is total in the model and degrades to its
documented default on internal error: a path map containing a value whose
string coercion throws returns the original template, a query map with
such a value returns the empty string, and a content map whose selected
payload makes JSON.stringify throw returns the application/json empty
object default (as does an absent content map, whose property access
throws). -/
theorem c7_serializers_defensive :
    (∀ (p : String) (entries : List (String × Option String)),
        (∃ kv ∈ entries, kv.2 = none) → serializePathParams p (some entries) = p)
    ∧ (∀ entries : List (String × Option String),
        (∃ kv ∈ entries, kv.2 = none) → serializeQueryParams (some entries) = "")
    ∧ (∀ (k : String) (rest : List (String × Payload)), k ≠ "" →
        serializeRequestBody (some ((k, Payload.circular) :: rest))
          = ⟨"application/json", "\x7b\x7d"⟩)
    ∧ serializeRequestBody none = ⟨"application/json", "\x7b\x7d"⟩ := by
  refine ⟨?_, ?_, ?_, rfl⟩
  · intro p entries h
    simp [serializePathParams, foldPath_fails entries p h]
  · intro entries h
    simp [serializeQueryParams, foldQuery_fails entries "?" h]
  · intro k rest hk
    simp only [serializeRequestBody, List.head?_cons, if_neg hk, lookupKey, if_pos rfl,
      payloadTruthy, payloadStringify]
    rfl

/-- Claim C7 witness: concrete malformed maps degrade to the defaults. -/
theorem c7_serializers_defensive_witness :
    (∃ kv ∈ [(("id" : String), (none : Option String))], kv.2 = none)
    ∧ serializePathParams "/u/\x7bid\x7d" (some [("id", none)]) = "/u/\x7bid\x7d"
    ∧ serializeQueryParams (some [("a", none)]) = ""
    ∧ ("text/plain" : String) ≠ ""
    ∧ serializeRequestBody (some [("text/plain", Payload.circular)])
        = ⟨"application/json", "\x7b\x7d"⟩ := by
  refine ⟨⟨("id", none), by simp, rfl⟩, ?_, ?_, by decide, ?_⟩
  · exact c7_serializers_defensive.1 "/u/\x7bid\x7d" [("id", none)]
      ⟨("id", none), by simp, rfl⟩
  · exact c7_serializers_defensive.2.1 [("a", none)] ⟨("a", none), by simp, rfl⟩
  · exact c7_serializers_defensive.2.2.1 "text/plain" [] (by decide)

/-- Claim C3 witness for the amended statement: the spec example, a
non-empty map with a truthy serializable payload. -/
theorem c3_body_construction_witness :
    ("application/json" : String) ≠ ""
    ∧ serializeRequestBody
        (some [("application/json", Payload.json (JsonValue.obj [("x", JsonValue.num 1)]))])
      = ⟨"application/json", "\x7b\"x\":1\x7d"⟩ := by
  refine ⟨by decide, ?_⟩
  have h := c3_body_construction_amended.2.2.1 "application/json"
    (JsonValue.obj [("x", JsonValue.num 1)]) [] (by decide)
  exact h.trans (by decide)

/-- Claim C9: the decoder yields data equal to the parsed JSON body when
the response declares a body and to the empty object when it does not,
and the returned raw response carries every data field of the original
response (its json accessor being the one thing the Omit type removes). -/
theorem c9_response_decoding (r : Response) :
    (r.body = false → responseDecode r = .ok ⟨.obj [], rawOf r⟩)
    ∧ (∀ j, r.body = true → r.json = .ok j → responseDecode r = .ok ⟨j, rawOf r⟩)
    ∧ (rawOf r).body = r.body
    ∧ (rawOf r).status = r.status
    ∧ (rawOf r).statusText = r.statusText
    ∧ (rawOf r).ok = r.ok
    ∧ (rawOf r).headers = r.headers := by
  refine ⟨?_, ?_, rfl, rfl, rfl, rfl, rfl⟩
  · intro h
    simp [responseDecode, h]
  · intro j hb hj
    simp [responseDecode, hb, hj]

/-- Claim C9 witness: a bodyless 204 response and a 200 response with a
JSON body. -/
theorem c9_response_decoding_witness :
    responseDecode ⟨false, .error "no body", 204, "No Content", true, []⟩
      = .ok ⟨.obj [], ⟨false, 204, "No Content", true, []⟩⟩
    ∧ responseDecode ⟨true, .ok (.obj [("y", .num 2)]), 200, "OK", true, []⟩
      = .ok ⟨.obj [("y", .num 2)], ⟨true, 200, "OK", true, []⟩⟩ := by
  constructor
  · exact (c9_response_decoding ⟨false, .error "no body", 204, "No Content", true, []⟩).1 rfl
  · exact (c9_response_decoding ⟨true, .ok (.obj [("y", .num 2)]), 200, "OK", true, []⟩).2.1
      (.obj [("y", .num 2)]) rfl rfl

/-- Claim C1: for every call through a verb method in which no middleware
or afterware raises and the transport resolves, the observed execution
order is exactly each middleware in registration order, then the
transport call, then each afterware in registration order, then response
decoding; the model sequences every step synchronously, so each step is
completed before the next begins and no hook is skipped. -/
theorem c1_pipeline_hook_order (v : Verb) (c : Client) (fetcher : TransportFun)
    (u : String) (o : Options) (ri : Option CustomRequestInit)
    (hm : ∀ m ∈ c.middlewares, MwOk m) (ha : ∀ a ∈ c.afterwares, AwOk a)
    (ht : TrOk fetcher) :
    (c.call v fetcher u o ri).1.map Event.label
      = (List.range c.middlewares.length).map EvLabel.mw
        ++ [EvLabel.transport]
        ++ (List.range c.afterwares.length).map EvLabel.aw
        ++ [EvLabel.decode] := by
  rw [call_eq]
  obtain ⟨t1, t2, fin, resp, heq, h2, h3, _, _, _, _⟩ :=
    request_all_ok c fetcher
      (serializePathParams u o.path ++ serializeQueryParams o.query)
      (builtInit v o ri) hm ha ht
  rw [heq]
  simp [Event.label, h2, h3, List.range_eq_range']

/-- Claim C2: for every call through a verb method whose middleware chain
contains a raising middleware preceded only by non-raising ones, the call
result rejects with exactly that error and the observed steps are exactly
the middlewares up to and including the raising one: the transport is
never invoked and no afterware, no later middleware and no decode runs. -/
theorem c2_middleware_error_halts (v : Verb) (c : Client) (fetcher : TransportFun)
    (u : String) (o : Options) (ri : Option CustomRequestInit)
    (pre : List MwFun) (bad : MwFun) (post : List MwFun) (e : String)
    (hsplit : c.middlewares = pre ++ bad :: post)
    (hpre : ∀ m ∈ pre, MwOk m) (hbad : ∀ a b, bad a b = .error e) :
    (c.call v fetcher u o ri).2.1 = .error e
    ∧ (c.call v fetcher u o ri).1.map Event.label
        = (List.range (pre.length + 1)).map EvLabel.mw := by
  rw [call_eq]
  obtain ⟨t, fin, h1, h2⟩ :=
    request_mw_fail c fetcher
      (serializePathParams u o.path ++ serializeQueryParams o.query)
      (builtInit v o ri) pre bad post e hsplit hpre hbad
  rw [h1]
  exact ⟨rfl, by simp [h2, List.range_eq_range']⟩

/-- Claim C6: for every verb call, the descriptor handed to the pipeline
(observed by the first recorded step) carries the verb's method string, a
Content-Type header entry, and a body exactly when the verb is not get:
the get method never attaches a body whatever the content option, while
post, put and delete attach the serialized body. -/
theorem c6_get_no_body (v : Verb) (c : Client) (fetcher : TransportFun)
    (u : String) (o : Options) (ri : Option CustomRequestInit) :
    (∃ ev d, (c.call v fetcher u o ri).1.head? = some ev
      ∧ ev.descriptor = some d
      ∧ d.method = some (verbMethod v)
      ∧ d.body = verbBody v (serializeRequestBody o.content).requestBody
      ∧ (lookupKey "Content-Type" (d.headers.getD [])).isSome = true)
    ∧ (∀ s, verbBody Verb.get s = none)
    ∧ (∀ s, verbBody Verb.post s = some s)
    ∧ (∀ s, verbBody Verb.put s = some s)
    ∧ (∀ s, verbBody Verb.delete s = some s) := by
  refine ⟨?_, fun s => rfl, fun s => rfl, fun s => rfl, fun s => rfl⟩
  rw [call_eq]
  obtain ⟨ev, h1, h2⟩ := request_head c fetcher
    (serializePathParams u o.path ++ serializeQueryParams o.query) (builtInit v o ri)
  refine ⟨ev, builtInit v o ri, h1, h2, rfl, rfl, ?_⟩
  show (lookupKey "Content-Type"
    ((some (objSpread [("Content-Type", (serializeRequestBody o.content).contentType)]
      ((ri.bind CustomRequestInit.headers).getD []))).getD [])).isSome = true
  rw [Option.getD_some, objSpread_lookup_base]
  rfl

/-- Claim C8: for every verb call with a caller-supplied overrides
object, the headers of the descriptor handed to the pipeline are the
computed Content-Type entry merged with the caller headers, the caller
taking precedence: the Content-Type entry holds the caller value when the
caller supplies one and the computed content type otherwise, and lookup
of every other key agrees with the caller headers. -/
theorem c8_header_merge_precedence (v : Verb) (c : Client) (fetcher : TransportFun)
    (u : String) (o : Options) (cri : CustomRequestInit) :
    ∃ ev d, (c.call v fetcher u o (some cri)).1.head? = some ev
      ∧ ev.descriptor = some d
      ∧ d.headers = some (objSpread
          [("Content-Type", (serializeRequestBody o.content).contentType)]
          (cri.headers.getD []))
      ∧ lookupKey "Content-Type" (d.headers.getD [])
          = some ((lookupKey "Content-Type" (cri.headers.getD [])).getD
              (serializeRequestBody o.content).contentType)
      ∧ (∀ k, k ≠ "Content-Type" →
          lookupKey k (d.headers.getD []) = lookupKey k (cri.headers.getD [])) := by
  rw [call_eq]
  obtain ⟨ev, h1, h2⟩ := request_head c fetcher
    (serializePathParams u o.path ++ serializeQueryParams o.query) (builtInit v o (some cri))
  refine ⟨ev, builtInit v o (some cri), h1, h2, rfl, ?_, ?_⟩
  · show lookupKey "Content-Type"
        ((some (objSpread [("Content-Type", (serializeRequestBody o.content).contentType)]
          (cri.headers.getD []))).getD []) = _
    rw [Option.getD_some, objSpread_lookup_base]
  · intro k hk
    show lookupKey k
        ((some (objSpread [("Content-Type", (serializeRequestBody o.content).contentType)]
          (cri.headers.getD []))).getD []) = _
    rw [Option.getD_some, objSpread_lookup_other _ _ _ hk]

/-- Claim C10: for every verb call with a caller-supplied overrides
object (and no step raising), the descriptor threaded through the
pipeline is that very object: the verb method sets its method, headers
and (for the body-carrying verbs) body fields in place, leaving its other
transport options untouched; the first recorded step receives exactly
this object, the state the transport and every afterware receive is the
result of composing the middleware mutations on it, and that same final
state is what the caller observes in the overrides object after the call
(the third component of the call result). -/
theorem c10_request_init_aliasing (v : Verb) (c : Client) (fetcher : TransportFun)
    (u : String) (o : Options) (cri : CustomRequestInit)
    (hm : ∀ m ∈ c.middlewares, MwOk m) (ha : ∀ a ∈ c.afterwares, AwOk a)
    (ht : TrOk fetcher) :
    builtInit v o (some cri)
      = { cri.toRequestInit with
          method := some (verbMethod v)
          headers := some (objSpread
            [("Content-Type", (serializeRequestBody o.content).contentType)]
            (cri.headers.getD []))
          body := verbBody v (serializeRequestBody o.content).requestBody }
    ∧ (builtInit v o (some cri)).extra = cri.extra
    ∧ (∀ ev, (c.call v fetcher u o (some cri)).1.head? = some ev →
        ev.descriptor = some (builtInit v o (some cri)))
    ∧ applyMws c.middlewares
        (c.baseUrl ++ (serializePathParams u o.path ++ serializeQueryParams o.query))
        (builtInit v o (some cri))
        = .ok (c.call v fetcher u o (some cri)).2.2
    ∧ (∀ ev ∈ (c.call v fetcher u o (some cri)).1,
        ev.label = EvLabel.transport →
          ev.descriptor = some (c.call v fetcher u o (some cri)).2.2)
    ∧ (∀ ev ∈ (c.call v fetcher u o (some cri)).1, ∀ i,
        ev.label = EvLabel.aw i →
          ev.descriptor = some (c.call v fetcher u o (some cri)).2.2) := by
  obtain ⟨ev0, hh1, hh2⟩ := request_head c fetcher
    (serializePathParams u o.path ++ serializeQueryParams o.query) (builtInit v o (some cri))
  obtain ⟨t1, t2, fin, resp, heq, h2, h3, h4, _, _, g3⟩ :=
    request_all_ok c fetcher
      (serializePathParams u o.path ++ serializeQueryParams o.query)
      (builtInit v o (some cri)) hm ha ht
  have hcall : c.call v fetcher u o (some cri)
      = (t1 ++ [.transport
            (c.baseUrl ++ (serializePathParams u o.path ++ serializeQueryParams o.query)) fin]
          ++ t2 ++ [.decode], responseDecode resp, fin) := by
    rw [call_eq]
    exact heq
  have ht1 : ∀ ev ∈ t1, ∃ j, ev.label = EvLabel.mw j := by
    intro ev hev
    have : ev.label ∈ t1.map Event.label := List.mem_map_of_mem Event.label hev
    rw [h2] at this
    obtain ⟨j, _, hj⟩ := List.mem_map.mp this
    exact ⟨j, hj.symm⟩
  have hmem : ∀ ev ∈ (c.call v fetcher u o (some cri)).1,
      ev ∈ t1
      ∨ ev = Event.transport
          (c.baseUrl ++ (serializePathParams u o.path ++ serializeQueryParams o.query)) fin
      ∨ ev ∈ t2 ∨ ev = Event.decode := by
    intro ev hev
    rw [hcall] at hev
    simp only [List.append_assoc, List.mem_append, List.mem_cons, List.not_mem_nil,
      or_false] at hev
    tauto
  refine ⟨rfl, rfl, ?_, ?_, ?_, ?_⟩
  · intro ev hev
    rw [call_eq] at hev
    rw [hh1] at hev
    cases hev
    exact hh2
  · rw [hcall]
    exact h4
  · intro ev hev hlab
    rcases hmem ev hev with hev1 | hev1 | hev1 | hev1
    · obtain ⟨j, hj⟩ := ht1 ev hev1
      rw [hj] at hlab
      cases hlab
    · rw [hev1, hcall]
      rfl
    · rw [hcall]
      exact g3 ev hev1
    · rw [hev1] at hlab
      simp [Event.label] at hlab
  · intro ev hev i hlab
    rcases hmem ev hev with hev1 | hev1 | hev1 | hev1
    · obtain ⟨j, hj⟩ := ht1 ev hev1
      rw [hj] at hlab
      cases hlab
    · rw [hev1, hcall]
      rfl
    · rw [hcall]
      exact g3 ev hev1
    · rw [hev1] at hlab
      simp [Event.label] at hlab

/-- Claim C1 witness: two middlewares, a transport and two afterwares on
a concrete call, observed in exactly the documented order. -/
theorem c1_pipeline_hook_order_witness :
    (clientW.call .get trW "/u" optsW none).1.map Event.label
      = [EvLabel.mw 0, EvLabel.mw 1, EvLabel.transport, EvLabel.aw 0, EvLabel.aw 1,
          EvLabel.decode] := by
  have hm : ∀ m ∈ clientW.middlewares, MwOk m := by
    intro m hm2
    have hcases : m = mwAddHeader ∨ m = mwKeep := by simpa [clientW] using hm2
    rcases hcases with rfl | rfl
    · exact fun info init => ⟨_, rfl⟩
    · exact fun info init => ⟨_, rfl⟩
  have ha : ∀ a ∈ clientW.afterwares, AwOk a := by
    intro a ha2
    have hcases : a = awNoop ∨ a = awNoop := by simpa [clientW] using ha2
    rcases hcases with rfl | rfl <;> exact fun init resp => rfl
  have ht : TrOk trW := fun info init => ⟨respW, rfl⟩
  have h := c1_pipeline_hook_order .get clientW trW "/u" optsW none hm ha ht
  exact h.trans (by decide)

/-- Claim C2 witness: a raising second middleware on a concrete call:
only the two middlewares are observed and the call rejects with the
middleware's error. -/
theorem c2_middleware_error_halts_witness :
    (clientBoom.call .post trW "/u" optsW none).2.1 = .error "boom"
    ∧ (clientBoom.call .post trW "/u" optsW none).1.map Event.label
        = [EvLabel.mw 0, EvLabel.mw 1] := by
  have hpre : ∀ m ∈ [mwKeep], MwOk m := by
    intro m hm2
    have hcases : m = mwKeep := by simpa using hm2
    subst hcases
    exact fun info init => ⟨_, rfl⟩
  have hbad : ∀ a b, mwBoom a b = .error "boom" := fun a b => rfl
  have h := c2_middleware_error_halts .post clientBoom trW "/u" optsW none
    [mwKeep] mwBoom [] "boom" rfl hpre hbad
  exact ⟨h.1, h.2.trans (by decide)⟩

/-- Claim C8 witness: a caller-supplied Content-Type overrides the
computed one and the other caller header entries are preserved. -/
theorem c8_header_merge_precedence_witness :
    lookupKey "Content-Type"
        (objSpread [("Content-Type", (serializeRequestBody optsW.content).contentType)]
          (criW.headers.getD []))
      = some "text/plain"
    ∧ lookupKey "X-B"
        (objSpread [("Content-Type", (serializeRequestBody optsW.content).contentType)]
          (criW.headers.getD []))
      = some "2" := by
  obtain ⟨ev, d, h1, h2, h3, h4, h5⟩ :=
    c8_header_merge_precedence .put clientW trW "/u" optsW criW
  rw [h3] at h4
  have h5x := h5 "X-B" (by decide)
  rw [h3] at h5x
  exact ⟨h4.trans (by decide), h5x.trans (by decide)⟩

/-- Claim C10 witness: on a concrete call the composed middleware
mutations applied to the caller's mutated overrides object yield exactly
the caller-visible final descriptor state. -/
theorem c10_request_init_aliasing_witness :
    applyMws clientW.middlewares
        ("https://api" ++ (serializePathParams "/u/\x7bid\x7d" optsW.path
          ++ serializeQueryParams optsW.query))
        (builtInit .post optsW (some criW))
      = .ok (clientW.call .post trW "/u/\x7bid\x7d" optsW (some criW)).2.2
    ∧ (clientW.call .post trW "/u/\x7bid\x7d" optsW (some criW)).2.2
      = { method := some "POST"
          headers := some [("Content-Type", "text/plain"), ("X-B", "2"), ("X-A", "1")]
          body := some "\x7b\"x\":1\x7d"
          extra := [("mode", "cors")] } := by
  have hm : ∀ m ∈ clientW.middlewares, MwOk m := by
    intro m hm2
    have hcases : m = mwAddHeader ∨ m = mwKeep := by simpa [clientW] using hm2
    rcases hcases with rfl | rfl
    · exact fun info init => ⟨_, rfl⟩
    · exact fun info init => ⟨_, rfl⟩
  have ha : ∀ a ∈ clientW.afterwares, AwOk a := by
    intro a ha2
    have hcases : a = awNoop ∨ a = awNoop := by simpa [clientW] using ha2
    rcases hcases with rfl | rfl <;> exact fun init resp => rfl
  have ht : TrOk trW := fun info init => ⟨respW, rfl⟩
  have h := c10_request_init_aliasing .post clientW trW "/u/\x7bid\x7d" optsW criW hm ha ht
  exact ⟨h.2.2.2.1, by decide⟩
